import Mathlib

/-!
# Verification of the go-life grid engine

A shallow embedding of the Conway's-Game-of-Life engine of this repository:
the cell data model, the per-cell transition `checkState`, the toroidal
neighbor count `liveNeighbors`, the per-tick pass over all cells from `main`,
and the random initialization `makeCells`.

The grid is a list of rows of cells, mirroring the `[][]*cell` slice of the
source.  The in-place pointer mutation of the source is modelled by explicit
state passing: `checkState` returns the grid in which the one cell it mutates
has been replaced, and the per-tick double loop of `main` threads the grid
through `checkState` calls in row-major order, exactly as the sequential
in-place updates do.
-/

/-- The `cell` struct of the source, restricted to its simulation state.
The `drawable` handle and the stored coordinates are omitted: the handle is
graphics plumbing, and the coordinates always equal the cell's grid position,
so they are represented by the position itself. -/
structure Cell where
  alive : Bool
  nextState : Bool
deriving DecidableEq

/-- Totalizing default used for out-of-range reads (the Go code would panic;
no proved statement depends on out-of-range behavior). -/
def defCell : Cell := ⟨false, false⟩

/-- The `[][]*cell` grid of the source. -/
abbrev Grid := List (List Cell)

/-- Read `cells[x][y]`. -/
def getCell (g : Grid) (x y : Nat) : Cell :=
  (g.getD x []).getD y defCell

/-- Write `cells[x][y] = c` (the model of mutating the cell through its
pointer). -/
def setCell (g : Grid) (x y : Nat) (c : Cell) : Grid :=
  g.set x ((g.getD x []).set y c)

/-- The wraparound of the `add` closure inside `liveNeighbors`:
an index equal to the length wraps to 0, an index equal to -1 wraps to
length - 1, anything else is left alone. -/
def wrapIdx (i : Int) (n : Nat) : Int :=
  if i = (n : Int) then 0
  else if i = -1 then (n : Int) - 1
  else i

/-- One call of the `add` closure of `liveNeighbors`: wrap the row index
against `len(cells)`, then the column index against `len(cells[x])` of the
wrapped row, and count 1 if the cell there is alive. -/
def addNeighbor (g : Grid) (x y : Int) : Nat :=
  let x' := wrapIdx x g.length
  let row := g.getD x'.toNat []
  let y' := wrapIdx y row.length
  if (row.getD y'.toNat defCell).alive then 1 else 0

/-- The function `liveNeighbors`: the eight `add` calls of the source, in
source order. -/
def liveNeighbors (g : Grid) (x y : Int) : Nat :=
  addNeighbor g (x - 1) y +
  addNeighbor g (x + 1) y +
  addNeighbor g x (y + 1) +
  addNeighbor g x (y - 1) +
  addNeighbor g (x - 1) (y + 1) +
  addNeighbor g (x + 1) (y + 1) +
  addNeighbor g (x - 1) (y - 1) +
  addNeighbor g (x + 1) (y - 1)

/-- The branch structure of `checkState` after the neighbor count: the
sequence of conditional assignments to `c.nextState`, starting from the
value `c.alive` it was just set to. -/
def applyRule (alive : Bool) (liveCount : Nat) : Bool :=
  if alive then
    let ns := alive
    let ns := if liveCount < 2 then false else ns
    let ns := if liveCount = 2 ∨ liveCount = 3 then true else ns
    let ns := if liveCount > 3 then false else ns
    ns
  else
    if liveCount = 3 then true else alive

/-- The method `checkState` on the cell at `(x, y)`: first `c.alive = c.nextState` and
the (redundant) `c.nextState = c.alive` are committed in place, then
`liveNeighbors` is evaluated against the grid that already contains this
commit, then the rule's conditional assignments produce the new
`c.nextState`. -/
def checkState (g : Grid) (x y : Nat) : Grid :=
  let a := (getCell g x y).nextState
  let g1 := setCell g x y ⟨a, a⟩
  let n := liveNeighbors g1 (x : Int) (y : Int)
  setCell g1 x y ⟨a, applyRule a n⟩

/-- The per-tick pass of `main`: `for x := range cells { for _, c := range
cells[x] { c.checkState(cells) } }`, calling `checkState` on every cell in
row-major order, threading the mutated grid through. -/
def stepGrid (g : Grid) : Grid :=
  (List.range g.length).foldl
    (fun acc x =>
      (List.range ((g.getD x []).length)).foldl
        (fun acc2 y => checkState acc2 x y) acc)
    g

/-- The function `makeCells`, parametrized by the dimensions, the density threshold, and
the stream of `rand.Float64()` results (one uniform draw per cell, consumed
in row-major order; the source fixes `rows = columns = 20`,
`threshold = 0.15` and seeds the stream from the wall clock).  Each cell is
alive iff its draw is strictly below the threshold, and `nextState` starts
equal to `alive`. -/
def makeCells (rows columns : Nat) (threshold : ℚ) (draws : Nat → ℚ) : Grid :=
  (List.range rows).map (fun x =>
    (List.range columns).map (fun y =>
      let a := decide (draws (x * columns + y) < threshold)
      (⟨a, a⟩ : Cell)))

/-- The committed (rendered) state of the grid: the `alive` flags. -/
def aliveProj (g : Grid) : List (List Bool) :=
  g.map (fun row => row.map Cell.alive)

/-- The scratch state of the grid: the `nextState` flags. -/
def nextStateProj (g : Grid) : List (List Bool) :=
  g.map (fun row => row.map Cell.nextState)

/-- Every `alive` flag is false. -/
def allDead (g : Grid) : Bool :=
  g.all (fun row => row.all (fun c => !c.alive))

/-- Every `alive` flag is true. -/
def allAlive (g : Grid) : Bool :=
  g.all (fun row => row.all (fun c => c.alive))

/-- Both flags of every cell are false. -/
def allBlank (g : Grid) : Bool :=
  g.all (fun row => row.all (fun c => !c.alive && !c.nextState))

/-- The grid has `R` rows, each of `C` cells (every grid `makeCells`
produces is of this shape). -/
def Rectangular (g : Grid) (R C : Nat) : Prop :=
  g.length = R ∧ ∀ row ∈ g, row.length = C

/-- Build a grid with `alive = nextState` given by a configuration of
booleans (the shape `makeCells` leaves the grid in). -/
def mkGrid (b : List (List Bool)) : Grid :=
  b.map (fun row => row.map (fun v => ⟨v, v⟩))

/-- The pair of in-range indices one `add` call of `liveNeighbors` reads,
on a grid of `R` rows of length `C`. -/
def wrappedPair (R C : Nat) (x y : Int) : Nat × Nat :=
  ((wrapIdx x R).toNat, (wrapIdx y C).toNat)

/-- The eight coordinates `liveNeighbors` examines for the cell at `(x, y)`,
in source order, on a grid of `R` rows of length `C`. -/
def neighborCoords (R C : Nat) (x y : Int) : List (Nat × Nat) :=
  [wrappedPair R C (x - 1) y,
   wrappedPair R C (x + 1) y,
   wrappedPair R C x (y + 1),
   wrappedPair R C x (y - 1),
   wrappedPair R C (x - 1) (y + 1),
   wrappedPair R C (x + 1) (y + 1),
   wrappedPair R C (x - 1) (y - 1),
   wrappedPair R C (x + 1) (y - 1)]

/-- The five-rule transition table of the specification (B3/S23): a live
cell survives iff it has two or three live neighbors, a dead cell is born
iff it has exactly three.  Stated from the specification to compare the
implementation against it. -/
def specRule (alive : Bool) (n : Nat) : Bool :=
  if alive then decide (n = 2 ∨ n = 3) else decide (n = 3)

/-- The specification's neighbor count over a committed boolean
configuration, with the same toroidal wrap. Stated from the specification
to compare the implementation against it. -/
def specCount (b : List (List Bool)) (x y : Int) : Nat :=
  let look : Int → Int → Nat := fun p q =>
    let p' := wrapIdx p b.length
    let row := b.getD p'.toNat []
    let q' := wrapIdx q row.length
    if row.getD q'.toNat false then 1 else 0
  look (x - 1) y + look (x + 1) y + look x (y + 1) + look x (y - 1) +
  look (x - 1) (y + 1) + look (x + 1) (y + 1) +
  look (x - 1) (y - 1) + look (x + 1) (y - 1)

/-- The generation advance as the specification describes it: an atomic
two-phase compute-then-commit step in which every cell's next value is
computed against the one pre-step committed configuration.  Stated from the
specification to compare the implementation's pass against it. -/
def specStep (b : List (List Bool)) : List (List Bool) :=
  (List.range b.length).map (fun x =>
    (List.range ((b.getD x []).length)).map (fun y =>
      specRule ((b.getD x []).getD y false) (specCount b (x : Int) (y : Int))))

/-- A horizontal blinker on a 5 by 5 grid: row 2, columns 1 to 3. -/
def blinkerConfig : List (List Bool) :=
  [[false, false, false, false, false],
   [false, false, false, false, false],
   [false, true,  true,  true,  false],
   [false, false, false, false, false],
   [false, false, false, false, false]]

/-- The perpendicular (vertical) blinker: column 2, rows 1 to 3. -/
def vertConfig : List (List Bool) :=
  [[false, false, false, false, false],
   [false, false, true,  false, false],
   [false, false, true,  false, false],
   [false, false, true,  false, false],
   [false, false, false, false, false]]

/-- The blinker grid with `alive = nextState`, as after initialization. -/
def blinkerGrid : Grid := mkGrid blinkerConfig

/-- A 2 by 2 block of live cells on a 6 by 6 grid (rows 2-3, columns 2-3),
with `alive = nextState`, isolated from wraparound. -/
def blockGrid : Grid :=
  mkGrid
    [[false, false, false, false, false, false],
     [false, false, false, false, false, false],
     [false, false, true,  true,  false, false],
     [false, false, true,  true,  false, false],
     [false, false, false, false, false, false],
     [false, false, false, false, false, false]]

/-- A 3 by 3 grid whose `alive` flags are all false but whose center cell
has a stale `nextState` of true. -/
def cexGrid : Grid :=
  [[⟨false, false⟩, ⟨false, false⟩, ⟨false, false⟩],
   [⟨false, false⟩, ⟨false, true⟩,  ⟨false, false⟩],
   [⟨false, false⟩, ⟨false, false⟩, ⟨false, false⟩]]

/-! ## List access helpers -/

lemma getD_set_same {α : Type} (l : List α) (i : Nat) (a d : α) (h : i < l.length) :
    (l.set i a).getD i d = a := by
  rw [List.getD_eq_getElem?_getD, List.getElem?_set_self h, Option.getD_some]

lemma getD_set_diff {α : Type} (l : List α) {i j : Nat} (a d : α) (h : i ≠ j) :
    (l.set i a).getD j d = l.getD j d := by
  rw [List.getD_eq_getElem?_getD, List.getElem?_set_ne h, ← List.getD_eq_getElem?_getD]

lemma set_getD_id {α : Type} (l : List α) (i : Nat) (d : α) :
    l.set i (l.getD i d) = l := by
  induction l generalizing i with
  | nil => rfl
  | cons hd tl ih =>
    cases i with
    | zero => rfl
    | succ n =>
      rw [List.getD_cons_succ]
      show hd :: tl.set n (tl.getD n d) = hd :: tl
      rw [ih]

lemma set_all_eq {α : Type} (l : List α) (i : Nat) (a : α) (h : ∀ b ∈ l, b = a) :
    l.set i a = l := by
  induction l generalizing i with
  | nil => rfl
  | cons hd tl ih =>
    cases i with
    | zero =>
      show a :: tl = hd :: tl
      rw [h hd (List.mem_cons_self _ _)]
    | succ n =>
      show hd :: tl.set n a = hd :: tl
      rw [ih n (fun b hb => h b (List.mem_cons_of_mem _ hb))]

lemma getD_default_or_mem {α : Type} (l : List α) (i : Nat) (d : α) :
    l.getD i d = d ∨ l.getD i d ∈ l := by
  induction l generalizing i with
  | nil => exact Or.inl rfl
  | cons hd tl ih =>
    cases i with
    | zero => exact Or.inr (List.mem_cons_self _ _)
    | succ n =>
      rw [List.getD_cons_succ]
      rcases ih n with h | h
      · exact Or.inl h
      · exact Or.inr (List.mem_cons_of_mem _ h)

lemma getD_mem_of_lt {α : Type} (l : List α) (i : Nat) (d : α) (h : i < l.length) :
    l.getD i d ∈ l := by
  rw [List.getD_eq_getElem?_getD, List.getElem?_eq_getElem h, Option.getD_some]
  exact List.getElem_mem h

lemma getD_map_range {β : Type} (f : Nat → β) {n i : Nat} (d : β) (h : i < n) :
    ((List.range n).map f).getD i d = f i := by
  rw [List.getD_eq_getElem?_getD, List.getElem?_map, List.getElem?_range h]
  rfl

/-! ## Cell access through `setCell` and `checkState` -/

lemma length_setCell (g : Grid) (x y : Nat) (c : Cell) :
    (setCell g x y c).length = g.length :=
  List.length_set ..

lemma rowLen_setCell (g : Grid) (x y p : Nat) (c : Cell) :
    ((setCell g x y c).getD p []).length = (g.getD p []).length := by
  unfold setCell
  by_cases hp : x = p
  · subst hp
    by_cases hx : x < g.length
    · rw [getD_set_same _ _ _ _ hx, List.length_set]
    · rw [List.getD_eq_default _ _ (by rw [List.length_set]; omega),
        List.getD_eq_default _ _ (by omega)]
  · rw [getD_set_diff _ _ _ hp]

lemma getCell_setCell_self (g : Grid) (x y : Nat) (c : Cell)
    (hx : x < g.length) (hy : y < (g.getD x []).length) :
    getCell (setCell g x y c) x y = c := by
  unfold getCell setCell
  rw [getD_set_same _ _ _ _ hx, getD_set_same _ _ _ _ hy]

lemma getCell_setCell_diff (g : Grid) (x y p q : Nat) (c : Cell)
    (h : (x, y) ≠ (p, q)) :
    getCell (setCell g x y c) p q = getCell g p q := by
  unfold getCell setCell
  by_cases hp : x = p
  · subst hp
    have hq : y ≠ q := by
      intro hyq
      exact h (by rw [hyq])
    by_cases hx : x < g.length
    · rw [getD_set_same _ _ _ _ hx, getD_set_diff _ _ _ hq]
    · have h1 : (List.set g x ((g.getD x []).set y c)).getD x [] = [] :=
        List.getD_eq_default _ _ (by rw [List.length_set]; omega)
      have h2 : g.getD x [] = [] := List.getD_eq_default _ _ (by omega)
      rw [h1, h2]
  · rw [getD_set_diff _ _ _ hp]

lemma length_checkState (g : Grid) (x y : Nat) :
    (checkState g x y).length = g.length := by
  unfold checkState
  rw [length_setCell, length_setCell]

lemma rowLen_checkState (g : Grid) (x y p : Nat) :
    ((checkState g x y).getD p []).length = ((g.getD p []).length) := by
  unfold checkState
  rw [rowLen_setCell, rowLen_setCell]

lemma getCell_checkState_diff (g : Grid) (x y p q : Nat) (h : (x, y) ≠ (p, q)) :
    getCell (checkState g x y) p q = getCell g p q := by
  unfold checkState
  rw [getCell_setCell_diff _ _ _ _ _ _ h, getCell_setCell_diff _ _ _ _ _ _ h]

lemma getCell_checkState_self (g : Grid) (x y : Nat)
    (hx : x < g.length) (hy : y < (g.getD x []).length) :
    getCell (checkState g x y) x y =
      ⟨(getCell g x y).nextState,
       applyRule (getCell g x y).nextState
         (liveNeighbors
           (setCell g x y ⟨(getCell g x y).nextState, (getCell g x y).nextState⟩)
           (x : Int) (y : Int))⟩ := by
  unfold checkState
  exact getCell_setCell_self _ x y _
    (by rw [length_setCell]; exact hx)
    (by rw [rowLen_setCell]; exact hy)

/-! ## The per-tick pass as a fold over row-major coordinates -/

/-- The pass over an explicit list of coordinates. -/
def runPass (L : List (Nat × Nat)) (g : Grid) : Grid :=
  L.foldl (fun acc c => checkState acc c.1 c.2) g

/-- The row-major coordinate list the double loop of `main` visits. -/
def passCoords (g : Grid) : List (Nat × Nat) :=
  ((List.range g.length).map (fun x =>
    (List.range ((g.getD x []).length)).map (fun y => (x, y)))).flatten

lemma stepGrid_eq_runPass (g : Grid) : stepGrid g = runPass (passCoords g) g := by
  unfold stepGrid runPass passCoords
  rw [List.foldl_flatten, List.foldl_map]
  simp only [List.foldl_map]

lemma passCoords_nodup (g : Grid) : (passCoords g).Nodup := by
  unfold passCoords
  rw [List.nodup_flatten]
  constructor
  · intro l hl
    simp only [List.mem_map, List.mem_range] at hl
    obtain ⟨x, _, rfl⟩ := hl
    exact (List.nodup_range _).map (fun a b hab => by simpa using hab)
  · rw [List.pairwise_map]
    refine List.Pairwise.imp ?_ (List.pairwise_lt_range g.length)
    intro a b hab p hp hq
    simp only [List.mem_map, List.mem_range] at hp hq
    obtain ⟨y1, _, rfl⟩ := hp
    obtain ⟨y2, _, heq⟩ := hq
    have : b = a := congrArg Prod.fst heq
    omega

lemma mem_passCoords {g : Grid} {x y : Nat}
    (hx : x < g.length) (hy : y < (g.getD x []).length) :
    (x, y) ∈ passCoords g := by
  unfold passCoords
  rw [List.mem_flatten]
  exact ⟨_, List.mem_map_of_mem _ (List.mem_range.mpr hx),
    List.mem_map_of_mem _ (List.mem_range.mpr hy)⟩

lemma passCoords_mem_range {g : Grid} {c : Nat × Nat} (h : c ∈ passCoords g) :
    c.1 < g.length ∧ c.2 < (g.getD c.1 []).length := by
  unfold passCoords at h
  rw [List.mem_flatten] at h
  obtain ⟨l, hl, hc⟩ := h
  simp only [List.mem_map, List.mem_range] at hl
  obtain ⟨x, hx, rfl⟩ := hl
  simp only [List.mem_map, List.mem_range] at hc
  obtain ⟨y, hy, rfl⟩ := hc
  exact ⟨hx, hy⟩

/-- The sequential pass, analysed: a coordinate not visited is untouched,
and after its visit a cell's `alive` flag holds the `nextState` value the
cell had when the pass started. -/
lemma runPass_spec :
    ∀ (L : List (Nat × Nat)) (g : Grid), L.Nodup →
      (∀ c ∈ L, c.1 < g.length ∧ c.2 < (g.getD c.1 []).length) →
      (∀ p q : Nat, (p, q) ∉ L → getCell (runPass L g) p q = getCell g p q) ∧
      (∀ p q : Nat, (p, q) ∈ L →
        (getCell (runPass L g) p q).alive = (getCell g p q).nextState) := by
  intro L
  induction L with
  | nil =>
    intro g _ _
    exact ⟨fun p q _ => rfl, fun p q h => absurd h (List.not_mem_nil _)⟩
  | cons c L ih =>
    obtain ⟨cx, cy⟩ := c
    intro g hnd hin
    obtain ⟨hcL, hndL⟩ := List.nodup_cons.mp hnd
    have hc := hin (cx, cy) (List.mem_cons_self _ _)
    have hg1 : ∀ d ∈ L, d.1 < (checkState g cx cy).length ∧
        d.2 < ((checkState g cx cy).getD d.1 []).length := by
      intro d hd
      rw [length_checkState, rowLen_checkState]
      exact hin d (List.mem_cons_of_mem _ hd)
    have IH := ih (checkState g cx cy) hndL hg1
    have hrun : runPass ((cx, cy) :: L) g = runPass L (checkState g cx cy) := rfl
    constructor
    · intro p q hpq
      have hnotL : (p, q) ∉ L := fun h => hpq (List.mem_cons_of_mem _ h)
      have hne : (cx, cy) ≠ (p, q) := fun h => hpq (h ▸ List.mem_cons_self _ _)
      rw [hrun, IH.1 p q hnotL, getCell_checkState_diff _ _ _ _ _ hne]
    · intro p q hpq
      rcases List.mem_cons.mp hpq with heq | hmem
      · obtain ⟨hp, hq⟩ := Prod.mk.injEq .. ▸ heq
        subst hp
        subst hq
        have hnotL : (p, q) ∉ L := hcL
        rw [hrun, IH.1 p q hnotL, getCell_checkState_self _ _ _ hc.1 hc.2]
      · have hne : (cx, cy) ≠ (p, q) := fun h => hcL (h ▸ hmem)
        rw [hrun, IH.2 p q hmem, getCell_checkState_diff _ _ _ _ _ hne]

/-- After a full pass, every cell's committed `alive` flag equals the
`nextState` it held before the pass. -/
lemma stepGrid_alive (g : Grid) (x y : Nat)
    (hx : x < g.length) (hy : y < (g.getD x []).length) :
    (getCell (stepGrid g) x y).alive = (getCell g x y).nextState := by
  rw [stepGrid_eq_runPass]
  exact (runPass_spec (passCoords g) g (passCoords_nodup g)
    (fun c hc => passCoords_mem_range hc)).2 x y (mem_passCoords hx hy)

/-! ## Analysis of the toroidal neighbor count -/

lemma wrapIdx_spec {R : Nat} {i : Int} (hR : 1 ≤ R) (h1 : -1 ≤ i) (h2 : i ≤ (R : Int)) :
    (wrapIdx i R).toNat < R ∧ ((wrapIdx i R).toNat : Int) = wrapIdx i R := by
  unfold wrapIdx
  split_ifs <;> first | contradiction | omega

lemma wrap_pred {R x : Nat} (hR : 1 ≤ R) (hx : x < R) :
    (wrapIdx ((x : Int) - 1) R).toNat = if x = 0 then R - 1 else x - 1 := by
  unfold wrapIdx
  split_ifs <;> first | contradiction | omega

lemma wrap_succ {R x : Nat} (hR : 1 ≤ R) (hx : x < R) :
    (wrapIdx ((x : Int) + 1) R).toNat = if x = R - 1 then 0 else x + 1 := by
  unfold wrapIdx
  split_ifs <;> first | contradiction | omega

lemma wrap_self {R x : Nat} (hx : x < R) :
    (wrapIdx (x : Int) R).toNat = x := by
  unfold wrapIdx
  split_ifs <;> first | contradiction | omega

/-- On a rectangular grid, one `add` call contributes 1 exactly when the
cell at its wrapped coordinate pair is alive. -/
lemma addNeighbor_eq {g : Grid} {R C : Nat} (hrect : Rectangular g R C)
    (hR : 1 ≤ R) {x y : Int} (hx1 : -1 ≤ x) (hx2 : x ≤ (R : Int)) :
    addNeighbor g x y =
      if (getCell g (wrappedPair R C x y).1 (wrappedPair R C x y).2).alive then 1 else 0 := by
  obtain ⟨hlen, hrow⟩ := hrect
  have hx : (wrapIdx x R).toNat < R := (wrapIdx_spec hR hx1 hx2).1
  have hrl : (g.getD (wrapIdx x R).toNat []).length = C := by
    apply hrow
    apply getD_mem_of_lt
    omega
  simp only [addNeighbor, wrappedPair, getCell]
  rw [hlen, hrl]

/-- On a rectangular grid, `liveNeighbors` is the count of live cells over
the eight wrapped coordinates, in source order, taken with multiplicity. -/
lemma liveNeighbors_eq_countP {g : Grid} {R C : Nat} (hrect : Rectangular g R C)
    (hR : 1 ≤ R) {x y : Nat} (hx : x < R) (hy : y < C) :
    liveNeighbors g (x : Int) (y : Int) =
      ((neighborCoords R C (x : Int) (y : Int)).map (fun p => getCell g p.1 p.2)).countP
        (fun c => c.alive) := by
  unfold liveNeighbors neighborCoords
  rw [addNeighbor_eq hrect hR (by omega) (by omega),
    addNeighbor_eq hrect hR (by omega) (by omega),
    addNeighbor_eq hrect hR (by omega) (by omega),
    addNeighbor_eq hrect hR (by omega) (by omega),
    addNeighbor_eq hrect hR (by omega) (by omega),
    addNeighbor_eq hrect hR (by omega) (by omega),
    addNeighbor_eq hrect hR (by omega) (by omega),
    addNeighbor_eq hrect hR (by omega) (by omega)]
  simp only [List.map_cons, List.map_nil, List.countP_cons, List.countP_nil]
  omega

lemma neighborCoords_in_range {R C : Nat} (hR : 1 ≤ R) (hC : 1 ≤ C) {x y : Nat}
    (hx : x < R) (hy : y < C) :
    ∀ p ∈ neighborCoords R C (x : Int) (y : Int), p.1 < R ∧ p.2 < C := by
  intro p hp
  simp only [neighborCoords, List.mem_cons, List.not_mem_nil, or_false] at hp
  rcases hp with h | h | h | h | h | h | h | h <;> subst h <;>
    exact ⟨(wrapIdx_spec hR (by omega) (by omega)).1,
      (wrapIdx_spec hC (by omega) (by omega)).1⟩

lemma neighborCoords_zero_mem {R C : Nat} (hR : 1 ≤ R) (hC : 1 ≤ C) :
    (R - 1, C - 1) ∈ neighborCoords R C 0 0 ∧
    (R - 1, 0) ∈ neighborCoords R C 0 0 ∧
    (0, C - 1) ∈ neighborCoords R C 0 0 := by
  have hp : (wrapIdx ((0 : Int) - 1) R).toNat = R - 1 := by
    rw [show (0 : Int) - 1 = (0 : Int) - 1 from rfl]
    have := wrap_pred (x := 0) hR (by omega)
    simpa using this
  have hq : (wrapIdx ((0 : Int) - 1) C).toNat = C - 1 := by
    have := wrap_pred (x := 0) hC (by omega)
    simpa using this
  have hx0 : (wrapIdx ((0 : Nat) : Int) R).toNat = 0 := wrap_self (by omega)
  have hy0 : (wrapIdx ((0 : Nat) : Int) C).toNat = 0 := wrap_self (by omega)
  refine ⟨?_, ?_, ?_⟩
  · have : wrappedPair R C ((0 : Int) - 1) ((0 : Int) - 1) = (R - 1, C - 1) := by
      unfold wrappedPair
      rw [hp, hq]
    simp only [neighborCoords, List.mem_cons]
    exact Or.inr (Or.inr (Or.inr (Or.inr (Or.inr (Or.inr (Or.inl this.symm))))))
  · have : wrappedPair R C ((0 : Int) - 1) 0 = (R - 1, 0) := by
      unfold wrappedPair
      rw [hp]
      have : (wrapIdx (0 : Int) C).toNat = 0 := by simpa using hy0
      rw [this]
    simp only [neighborCoords, List.mem_cons]
    exact Or.inl this.symm
  · have : wrappedPair R C 0 ((0 : Int) - 1) = (0, C - 1) := by
      unfold wrappedPair
      rw [hq]
      have : (wrapIdx (0 : Int) R).toNat = 0 := by simpa using hx0
      rw [this]
    simp only [neighborCoords, List.mem_cons]
    exact Or.inr (Or.inr (Or.inr (Or.inl this.symm)))

/-- With both dimensions at least 3, the eight examined coordinates are
pairwise distinct and never the cell's own coordinates. -/
lemma neighborCoords_distinct {R C x y : Nat} (hR : 3 ≤ R) (hC : 3 ≤ C)
    (hx : x < R) (hy : y < C) :
    (neighborCoords R C (x : Int) (y : Int)).Pairwise (fun a b => a ≠ b) ∧
    (x, y) ∉ neighborCoords R C (x : Int) (y : Int) := by
  unfold neighborCoords wrappedPair
  rw [wrap_pred (by omega) hx, wrap_succ (by omega) hx, wrap_self hx,
    wrap_pred (by omega) hy, wrap_succ (by omega) hy, wrap_self hy]
  constructor
  · simp only [List.pairwise_cons, List.mem_cons, List.not_mem_nil, or_false,
      List.mem_singleton, ne_eq, Prod.mk.injEq, not_and, List.Pairwise.nil,
      and_true, forall_eq_or_imp, forall_eq, false_implies, implies_true,
      true_implies, true_and]
    split_ifs <;> omega
  · simp only [List.mem_cons, List.not_mem_nil, or_false, Prod.mk.injEq, not_or, not_and]
    split_ifs <;> omega

/-! ## Grids with every field false -/

lemma cell_eq_defCell {c : Cell} (ha : c.alive = false) (hn : c.nextState = false) :
    c = defCell := by
  cases c with
  | mk a b => exact congrArg₂ Cell.mk ha hn

lemma allBlank_getCell {g : Grid} (h : allBlank g = true) (x y : Nat) :
    getCell g x y = defCell := by
  have hall := List.all_eq_true.mp h
  unfold getCell
  rcases getD_default_or_mem g x [] with hr | hr
  · rw [hr]
    rfl
  · have hrow := List.all_eq_true.mp (hall _ hr)
    rcases getD_default_or_mem (g.getD x []) y defCell with hc | hc
    · rw [hc]
    · have hflags := hrow _ hc
      rw [Bool.and_eq_true, Bool.not_eq_true', Bool.not_eq_true'] at hflags
      exact cell_eq_defCell hflags.1 hflags.2

lemma addNeighbor_blank {g : Grid} (h : allBlank g = true) (x y : Int) :
    addNeighbor g x y = 0 := by
  have hall := List.all_eq_true.mp h
  unfold addNeighbor
  have halive : ((g.getD (wrapIdx x g.length).toNat []).getD
      (wrapIdx y (g.getD (wrapIdx x g.length).toNat []).length).toNat defCell).alive = false := by
    rcases getD_default_or_mem g (wrapIdx x g.length).toNat [] with hr | hr
    · rw [hr]
      rfl
    · have hrow := List.all_eq_true.mp (hall _ hr)
      rcases getD_default_or_mem (g.getD (wrapIdx x g.length).toNat [])
          (wrapIdx y (g.getD (wrapIdx x g.length).toNat []).length).toNat defCell with hc | hc
      · rw [hc]
        rfl
      · have hflags := hrow _ hc
        rw [Bool.and_eq_true, Bool.not_eq_true', Bool.not_eq_true'] at hflags
        exact hflags.1
  simp only [halive, Bool.false_eq_true, if_false]

lemma liveNeighbors_blank {g : Grid} (h : allBlank g = true) (x y : Int) :
    liveNeighbors g x y = 0 := by
  unfold liveNeighbors
  rw [addNeighbor_blank h, addNeighbor_blank h, addNeighbor_blank h, addNeighbor_blank h,
    addNeighbor_blank h, addNeighbor_blank h, addNeighbor_blank h, addNeighbor_blank h]

lemma setCell_blank_eq {g : Grid} (h : allBlank g = true) (x y : Nat) :
    setCell g x y ⟨false, false⟩ = g := by
  have hall := List.all_eq_true.mp h
  unfold setCell
  have hrow : (g.getD x []).set y (⟨false, false⟩ : Cell) = g.getD x [] := by
    rcases getD_default_or_mem g x [] with hr | hr
    · rw [hr]
      rfl
    · apply set_all_eq
      intro b hb
      have hflags := List.all_eq_true.mp (hall _ hr) _ hb
      rw [Bool.and_eq_true, Bool.not_eq_true', Bool.not_eq_true'] at hflags
      exact cell_eq_defCell hflags.1 hflags.2
  rw [hrow, set_getD_id]

lemma checkState_blank {g : Grid} (h : allBlank g = true) (x y : Nat) :
    checkState g x y = g := by
  simp only [checkState, allBlank_getCell h, defCell]
  rw [setCell_blank_eq h, liveNeighbors_blank h]
  have hrule : applyRule false 0 = false := rfl
  rw [hrule]
  exact setCell_blank_eq h x y

lemma foldl_fixed {α : Type} (f : Grid → α → Grid) (g : Grid) (L : List α)
    (h : ∀ a, f g a = g) : L.foldl f g = g := by
  induction L with
  | nil => rfl
  | cons hd tl ih =>
    rw [List.foldl_cons, h hd]
    exact ih

lemma stepGrid_blank {g : Grid} (h : allBlank g = true) : stepGrid g = g := by
  unfold stepGrid
  apply foldl_fixed
  intro x
  apply foldl_fixed
  intro y
  exact checkState_blank h x y

/-! ## Initialization -/

lemma getCell_makeCells {rows columns : Nat} {threshold : ℚ} {draws : Nat → ℚ}
    {x y : Nat} (hx : x < rows) (hy : y < columns) :
    getCell (makeCells rows columns threshold draws) x y =
      ⟨decide (draws (x * columns + y) < threshold),
       decide (draws (x * columns + y) < threshold)⟩ := by
  unfold getCell makeCells
  rw [getD_map_range _ _ hx, getD_map_range _ _ hy]

lemma allDead_makeCells_zero (rows columns : Nat) (draws : Nat → ℚ)
    (h : ∀ i, 0 ≤ draws i) :
    allDead (makeCells rows columns 0 draws) = true := by
  unfold allDead makeCells
  rw [List.all_eq_true]
  intro row hrow
  rw [List.mem_map] at hrow
  obtain ⟨x, _, rfl⟩ := hrow
  rw [List.all_eq_true]
  intro c hc
  rw [List.mem_map] at hc
  obtain ⟨y, _, rfl⟩ := hc
  have := not_lt.mpr (h (x * columns + y))
  simp [this]

lemma allAlive_makeCells_one (rows columns : Nat) (draws : Nat → ℚ)
    (h : ∀ i, draws i < 1) :
    allAlive (makeCells rows columns 1 draws) = true := by
  unfold allAlive makeCells
  rw [List.all_eq_true]
  intro row hrow
  rw [List.mem_map] at hrow
  obtain ⟨x, _, rfl⟩ := hrow
  rw [List.all_eq_true]
  intro c hc
  rw [List.mem_map] at hc
  obtain ⟨y, _, rfl⟩ := hc
  simp [h (x * columns + y)]

/-! ## The transition table -/

lemma applyRule_eq_specRule (a : Bool) (n : Nat) :
    applyRule a n = specRule a n := by
  cases a
  · unfold applyRule specRule
    by_cases h : n = 3 <;> simp [h]
  · unfold applyRule specRule
    by_cases h1 : n < 2
    · have h2 : ¬(n = 2 ∨ n = 3) := by omega
      have h3 : ¬(n > 3) := by omega
      simp [h1, h2, h3]
    · by_cases h2 : n = 2 ∨ n = 3
      · have h3 : ¬(n > 3) := by omega
        simp [h1, h2, h3]
      · have h3 : n > 3 := by omega
        simp [h1, h2, h3]

/-! ## The claims -/

/-- Claim C1 (refuted; recorded as a code bug): the per-tick pass is NOT an
atomic batch advance computed against an invariant pre-step state.  On the
blinker: the first pass's freshly computed next states do agree with one
atomic specification step, but the second pass's do not agree with two
atomic steps — each `checkState` call commits its cell's pending value
before later cells count their neighbors, so the second pass counts a
mixture of two generations.  Moreover the committed `alive` flags after a
pass are not the batch-committed new values the specification requires. -/
theorem c1_pass_not_atomic_eval :
    nextStateProj (stepGrid blinkerGrid) = specStep blinkerConfig ∧
    nextStateProj (stepGrid (stepGrid blinkerGrid)) ≠ specStep (specStep blinkerConfig) ∧
    aliveProj (stepGrid blinkerGrid) ≠ specStep blinkerConfig := by
  refine ⟨by decide, by decide, by decide⟩

/-- Claim C2: the per-cell transition computed by `checkState` follows the
B3/S23 table — a live cell's next state is true iff its count is 2 or 3, a
dead cell's iff its count is exactly 3; and the `nextState` that
`checkState` publishes for the cell is exactly `applyRule` of the cell's
committed value and the neighbor count it takes. -/
theorem c2_checkState_b3s23 :
    (∀ (a : Bool) (n : Nat),
      applyRule a n = if a then decide (n = 2 ∨ n = 3) else decide (n = 3)) ∧
    (∀ (g : Grid) (x y : Nat), x < g.length → y < (g.getD x []).length →
      (getCell (checkState g x y) x y).nextState =
        applyRule (getCell g x y).nextState
          (liveNeighbors
            (setCell g x y ⟨(getCell g x y).nextState, (getCell g x y).nextState⟩)
            (x : Int) (y : Int))) := by
  constructor
  · intro a n
    rw [applyRule_eq_specRule]
    rfl
  · intro g x y hx hy
    rw [getCell_checkState_self g x y hx hy]

/-- Witness for C2 at a concrete input. -/
theorem c2_checkState_b3s23_witness :
    (getCell (checkState blinkerGrid 2 2) 2 2).nextState =
      applyRule (getCell blinkerGrid 2 2).nextState
        (liveNeighbors
          (setCell blinkerGrid 2 2
            ⟨(getCell blinkerGrid 2 2).nextState, (getCell blinkerGrid 2 2).nextState⟩)
          ((2 : Nat) : Int) ((2 : Nat) : Int)) :=
  c2_checkState_b3s23.2 blinkerGrid 2 2 (by decide) (by decide)

/-- Claim C3: on an `R` by `C` rectangular grid with both dimensions at
least 1, `liveNeighbors` of an in-range cell examines exactly the eight
wrapped offset coordinates, all of them in range, and returns the number of
examined coordinates holding a live cell, at most 8; and the neighbor set
of `(0, 0)` contains the three wraparound corners. -/
theorem c3_liveNeighbors_toroidal :
    ∀ (g : Grid) (R C x y : Nat), Rectangular g R C → 1 ≤ R → 1 ≤ C → x < R → y < C →
      (neighborCoords R C (x : Int) (y : Int)).length = 8 ∧
      (∀ p ∈ neighborCoords R C (x : Int) (y : Int), p.1 < R ∧ p.2 < C) ∧
      liveNeighbors g (x : Int) (y : Int) =
        ((neighborCoords R C (x : Int) (y : Int)).map (fun p => getCell g p.1 p.2)).countP
          (fun c => c.alive) ∧
      liveNeighbors g (x : Int) (y : Int) ≤ 8 ∧
      ((R - 1, C - 1) ∈ neighborCoords R C 0 0 ∧
       (R - 1, 0) ∈ neighborCoords R C 0 0 ∧
       (0, C - 1) ∈ neighborCoords R C 0 0) := by
  intro g R C x y hrect hR hC hx hy
  have hcount := liveNeighbors_eq_countP hrect hR hx hy
  refine ⟨rfl, neighborCoords_in_range hR hC hx hy, hcount, ?_,
    neighborCoords_zero_mem hR hC⟩
  have hlen : ((neighborCoords R C (x : Int) (y : Int)).map
      (fun p => getCell g p.1 p.2)).length = 8 := by
    rw [List.length_map]
    rfl
  rw [hcount, ← hlen]
  exact List.countP_le_length _

/-- Witness for C3 at a concrete input. -/
theorem c3_liveNeighbors_toroidal_witness :
    liveNeighbors blinkerGrid ((2 : Nat) : Int) ((2 : Nat) : Int) ≤ 8 :=
  (c3_liveNeighbors_toroidal blinkerGrid 5 5 2 2
    (⟨by decide, by decide⟩ : Rectangular blinkerGrid 5 5) (by decide) (by decide)
    (by decide) (by decide)).2.2.2.1

/-- Claim C4 (refuted; recorded as a code bug): the blinker does not reach
the perpendicular configuration after one pass — the committed `alive`
flags are still the original horizontal configuration — and does not return
to its original configuration after two passes: the committed flags then
hold the perpendicular configuration, and the freshly computed next states
hold a corrupted pattern that is not the blinker either. -/
theorem c4_blinker_eval :
    aliveProj (stepGrid blinkerGrid) = blinkerConfig ∧
    aliveProj (stepGrid blinkerGrid) ≠ vertConfig ∧
    aliveProj (stepGrid (stepGrid blinkerGrid)) = vertConfig ∧
    aliveProj (stepGrid (stepGrid blinkerGrid)) ≠ blinkerConfig ∧
    nextStateProj (stepGrid (stepGrid blinkerGrid)) ≠ blinkerConfig := by
  refine ⟨by decide, by decide, by decide, by decide, by decide⟩

/-- Claim C5: the isolated 2 by 2 block is a fixed point of the per-tick
pass: one pass leaves the grid (both fields of every cell) unchanged, and
hence so does any number of passes. -/
theorem c5_block_fixed :
    stepGrid blockGrid = blockGrid ∧ ∀ n : Nat, stepGrid^[n] blockGrid = blockGrid := by
  have hbase : stepGrid blockGrid = blockGrid := by decide
  refine ⟨hbase, ?_⟩
  intro n
  induction n with
  | zero => rfl
  | succ m ih =>
    rw [Function.iterate_succ_apply, hbase, ih]

/-- Counterexample to claim C6 as stated: a 3 by 3 grid whose `alive` flags
are all false but whose center cell holds a stale true `nextState` does not
stay dead — the pass commits the stale scratch value into `alive`. -/
theorem c6_all_dead_counterexample :
    allDead cexGrid = true ∧ allDead (stepGrid cexGrid) = false := by
  refine ⟨by decide, by decide⟩

/-- Claim C6, amended: a grid in which every cell's `alive` AND `nextState`
flags are both false stays fully dead after any number of passes. -/
theorem c6_blank_grid_stays_dead :
    ∀ g : Grid, allBlank g = true → ∀ n : Nat, allDead (stepGrid^[n] g) = true := by
  intro g h n
  have hfix : stepGrid^[n] g = g := by
    induction n with
    | zero => rfl
    | succ m ih =>
      rw [Function.iterate_succ_apply, stepGrid_blank h, ih]
  rw [hfix]
  unfold allBlank at h
  unfold allDead
  rw [List.all_eq_true] at h ⊢
  intro row hr
  rw [List.all_eq_true]
  intro c hc
  have hcell := List.all_eq_true.mp (h row hr) c hc
  rw [Bool.and_eq_true] at hcell
  exact hcell.1

/-- Witness for the amended C6 at a concrete input. -/
theorem c6_blank_grid_stays_dead_witness :
    allDead (stepGrid^[2] ([[defCell, defCell], [defCell, defCell]] : Grid)) = true :=
  c6_blank_grid_stays_dead _ (by decide) 2

/-- Claim C7: initialization makes a cell alive exactly when its uniform
draw is strictly below the density threshold, with the scratch `nextState`
equal to `alive`; density 0 yields an all-dead grid and density 1 an
all-alive grid (for draws in the interval from 0 inclusive to 1
exclusive). -/
theorem c7_makeCells_density :
    ∀ (rows columns : Nat) (threshold : ℚ) (draws : Nat → ℚ),
      (∀ x y : Nat, x < rows → y < columns →
        getCell (makeCells rows columns threshold draws) x y =
          ⟨decide (draws (x * columns + y) < threshold),
           decide (draws (x * columns + y) < threshold)⟩) ∧
      ((∀ i, 0 ≤ draws i) → allDead (makeCells rows columns 0 draws) = true) ∧
      ((∀ i, draws i < 1) → allAlive (makeCells rows columns 1 draws) = true) := by
  intro rows columns threshold draws
  exact ⟨fun x y hx hy => getCell_makeCells hx hy,
    fun h => allDead_makeCells_zero rows columns draws h,
    fun h => allAlive_makeCells_one rows columns draws h⟩

/-- Witness for C7 at a concrete input. -/
theorem c7_makeCells_density_witness :
    getCell (makeCells 2 2 ((1 : ℚ)/2) (fun _ => (1 : ℚ)/4)) 0 1 = ⟨true, true⟩ ∧
    allDead (makeCells 2 2 0 (fun _ => (1 : ℚ)/4)) = true ∧
    allAlive (makeCells 2 2 1 (fun _ => (1 : ℚ)/4)) = true := by
  refine ⟨?_, ?_, ?_⟩
  · have h := (c7_makeCells_density 2 2 ((1 : ℚ)/2) (fun _ => (1 : ℚ)/4)).1 0 1
      (by decide) (by decide)
    rw [h, decide_eq_true (by norm_num : ((1 : ℚ)/4 < (1 : ℚ)/2))]
  · exact (c7_makeCells_density 2 2 0 (fun _ => (1 : ℚ)/4)).2.1 (fun i => by norm_num)
  · exact (c7_makeCells_density 2 2 1 (fun _ => (1 : ℚ)/4)).2.2 (fun i => by norm_num)

/-- Claim C8: the per-tick pass consumes no randomness: it is a function of
the prior grid state alone, so two runs from bit-identical states produce
bit-identical successors, for any number of passes. -/
theorem c8_step_deterministic :
    ∀ (g g' : Grid) (n : Nat), g = g' → stepGrid^[n] g = stepGrid^[n] g' := by
  intro g g' n h
  rw [h]

/-- Witness for C8 at a concrete input. -/
theorem c8_step_deterministic_witness :
    stepGrid^[1] blinkerGrid = stepGrid^[1] blinkerGrid :=
  c8_step_deterministic blinkerGrid blinkerGrid 1 rfl

/-- Claim C9: right after `checkState` the cell's `alive` equals the
`nextState` it held before the call and its `nextState` holds the rule's
output; consequently a full pass publishes into `alive` the values that
were pending in `nextState` when the pass began — the committed flags the
renderer reads lag one generation behind the freshly computed values. -/
theorem c9_commit_then_compute :
    (∀ (g : Grid) (x y : Nat), x < g.length → y < (g.getD x []).length →
      (getCell (checkState g x y) x y).alive = (getCell g x y).nextState ∧
      (getCell (checkState g x y) x y).nextState =
        applyRule (getCell g x y).nextState
          (liveNeighbors
            (setCell g x y ⟨(getCell g x y).nextState, (getCell g x y).nextState⟩)
            (x : Int) (y : Int))) ∧
    (∀ (g : Grid) (x y : Nat), x < g.length → y < (g.getD x []).length →
      (getCell (stepGrid g) x y).alive = (getCell g x y).nextState) := by
  constructor
  · intro g x y hx hy
    rw [getCell_checkState_self g x y hx hy]
    exact ⟨rfl, rfl⟩
  · intro g x y hx hy
    exact stepGrid_alive g x y hx hy

/-- Witness for C9 at a concrete input. -/
theorem c9_commit_then_compute_witness :
    (getCell (stepGrid blinkerGrid) 1 2).alive = (getCell blinkerGrid 1 2).nextState :=
  c9_commit_then_compute.2 blinkerGrid 1 2 (by decide) (by decide)

/-- Claim C10: with both dimensions at least 3 the eight examined
coordinates are pairwise distinct and exclude the cell itself; on a 1 by 1
grid all eight wrap to the cell's own coordinates, so a single live cell
counts itself eight times. -/
theorem c10_neighbor_distinctness :
    (∀ (R C x y : Nat), 3 ≤ R → 3 ≤ C → x < R → y < C →
      (neighborCoords R C (x : Int) (y : Int)).Pairwise (fun a b => a ≠ b) ∧
      (x, y) ∉ neighborCoords R C (x : Int) (y : Int)) ∧
    neighborCoords 1 1 0 0 = List.replicate 8 (0, 0) ∧
    liveNeighbors [[(⟨true, true⟩ : Cell)]] 0 0 = 8 := by
  refine ⟨?_, by decide, by decide⟩
  intro R C x y hR hC hx hy
  exact neighborCoords_distinct hR hC hx hy

/-- Witness for C10 at a concrete input. -/
theorem c10_neighbor_distinctness_witness :
    (neighborCoords 3 3 ((1 : Nat) : Int) ((1 : Nat) : Int)).Pairwise (fun a b => a ≠ b) ∧
    ((1 : Nat), (1 : Nat)) ∉ neighborCoords 3 3 ((1 : Nat) : Int) ((1 : Nat) : Int) :=
  c10_neighbor_distinctness.1 3 3 1 1 (by decide) (by decide) (by decide) (by decide)
